import Mathlib

/-!
Shallow embedding of `backup.py` (GUI-Junkie/Python-Backup), the directory-tree
backup orchestrator, together with theorems settling the specification claims.

External shell operations issued through `pipe` are modelled as values of the
`Cmd` type; the filesystem seen through `listdir`/`isdir`/`getmtime` is
modelled as a snapshot tree of `Entry` values (the program is single-threaded
and assumes no concurrent mutation).  Modification times are natural numbers;
`datetime` comparison is total order, so this loses nothing.
-/

namespace PyBackup

/-- A shell operation issued by the program through `pipe` / `mkdir`.
Each constructor records the exact paths interpolated into the command string. -/
inductive Cmd where
  | mkdir (path : String)
  | tarCreate (archive : String) (src : String)
  | tarAppend (archive : String) (src : String)
  | gzip (src : String) (dst : String)
  | mv (src : String) (dst : String)
  | rm (path : String)
  | rmr (path : String)
deriving DecidableEq, Repr

/-- Snapshot of a directory entry as seen via `listdir`, `isdir`, `getmtime`.
A `dir` carries the listing of its own contents (the program walks the tree
with repeated `listdir` calls; the snapshot embeds that walk). -/
inductive Entry where
  | file (name : String) (mtime : Nat) : Entry
  | dir (name : String) (mtime : Nat) (children : List Entry) : Entry
deriving Repr

/-- Python truthiness of an optional string field (`None` and `''` are falsy). -/
def pyTruthy : Option String → Bool
  | none => false
  | some s => !s.isEmpty

/-- Python f-string rendering of an optional string field (`None` prints as "None"). -/
def pyStr : Option String → String
  | none => "None"
  | some s => s

/-- Model of `s.replace(c, '')` on the character list of a Python string: removes every
occurrence of the single character `c`. -/
def removeChar (c : Char) (l : List Char) : List Char :=
  l.filter fun x => x != c

/-- Archive-name derivation used by `Backup._backup` and `Backup._make_tarball`:
`backup_file_name = path.replace('/', '').replace('.', '')`. -/
def stripName (path : String) : String :=
  String.mk (removeChar '.' (removeChar '/' path.data))

/-- The one stderr output `pipe` treats as benign (tar's path-normalization notice). -/
def benignNotice : String := "Removing leading `/' from member names"

/-- Whether `needle` is a prefix of the second list (char-by-char). -/
def seqStarts : List Char → List Char → Bool
  | [], _ => true
  | _ :: _, [] => false
  | a :: as, b :: bs => a == b && seqStarts as bs

/-- Whether `needle` occurs as a contiguous subsequence (Python `in` on strings). -/
def containsSeq (needle : List Char) : List Char → Bool
  | [] => needle.isEmpty
  | b :: bs => seqStarts needle (b :: bs) || containsSeq needle bs

/-- Function `pipe(command)`: given the stderr text `err` of the spawned process, the
function raises `PipeError` iff `err` is non-empty and does not contain the
benign notice (`if err: if "Removing leading ..." not in err: raise`). -/
def pipe_raises (err : String) : Bool :=
  !err.isEmpty && !containsSeq benignNotice.data err.data

/-- The `for local_path in listdir(path)` loop body of `Backup._check_folders`,
over the listing `cs` of the current directory, threading the mutable
`self.modified` flag `m`.  For a subdirectory entry: with no `last_date` set
`modified` and return; with an mtime newer than `last_date` set `modified` and
return; otherwise recurse with `self._check_folders(local_file)`.  The
recursive call happens only when `ld` is `some d`, where the body of
`check_folders` (entry guard plus its trailing no-`last_date` check, which is
vacuous there) reduces to `if m then m else check_loop ld cs m`, written
inline here to keep the recursion non-mutual. -/
def check_loop (ld : Option Nat) : List Entry → Bool → Bool
  | [], m => m
  | Entry.file _ _ :: rest, m => check_loop ld rest m
  | Entry.dir _ mt cs :: rest, m =>
    match ld with
    | none => true
    | some d =>
      if d < mt then true
      else check_loop ld rest (if m then m else check_loop ld cs m)
termination_by l _ => sizeOf l
decreasing_by all_goals simp_wf <;> omega

/-- Method `Backup._check_folders(path)` where `cs` is the listing of `path`, `ld` is
`self.last_date` and `m` the incoming `self.modified` flag: return unchanged if
already modified, else run the loop over the listing, then the trailing
`if not self.last_date: self.modified = True`. -/
def check_folders (ld : Option Nat) (cs : List Entry) (m : Bool) : Bool :=
  if m then m
  else
    let r := check_loop ld cs m
    if ld.isNone then true else r

/-- Specification predicate: some subdirectory (a `dir` entry, at any depth)
in the listing has modification time strictly greater than `d`. -/
def entriesDirExceeds (d : Nat) : List Entry → Bool
  | [] => false
  | Entry.file _ _ :: rest => entriesDirExceeds d rest
  | Entry.dir _ mt cs :: rest =>
    decide (d < mt) || entriesDirExceeds d cs || entriesDirExceeds d rest
termination_by l => sizeOf l
decreasing_by all_goals simp_wf <;> omega

/-- Specification predicate of the claim as written: some entry (file or
directory, at any depth) has modification time strictly greater than `d`. -/
def entriesAnyExceeds (d : Nat) : List Entry → Bool
  | [] => false
  | Entry.file _ mt :: rest => decide (d < mt) || entriesAnyExceeds d rest
  | Entry.dir _ mt cs :: rest =>
    decide (d < mt) || entriesAnyExceeds d cs || entriesAnyExceeds d rest
termination_by l => sizeOf l
decreasing_by all_goals simp_wf <;> omega

/-- Whether the listing has a directory among its immediate entries (what the
loop reacts to when `last_date` is absent: it returns at the first one). -/
def entriesHasDir : List Entry → Bool
  | [] => false
  | Entry.file _ _ :: rest => entriesHasDir rest
  | Entry.dir _ _ _ :: _ => true

/-- Value the loop ORs into the incoming `modified` flag. -/
def loopSpec (ld : Option Nat) (cs : List Entry) : Bool :=
  match ld with
  | none => entriesHasDir cs
  | some d => entriesDirExceeds d cs

/-- The mutable run state held on the `Backup` object (the fields assigned in
`Backup.__init__`). -/
structure BackupState where
  always : List String
  backup : Option String
  base_folders : List String
  checked : Bool
  excluded : List String
  individual : List String
  last_backup_folder : Option String
  last_date : Option Nat
  modified : Bool
  normal : List String
  this_backup_folder : Option String
  verbose : Bool
deriving DecidableEq, Repr

/-- The values read from `backup.ini` by the parsing loop of `Backup.__init__`
(parsing of the sectioned text format itself is out of scope; these are the
fields it fills). -/
structure LoadedConfig where
  last_date : Option Nat
  last_backup_folder : Option String
  backup : Option String
  base_folders : List String
  always : List String
  excluded : List String
  normal : List String
  individual : List String
deriving DecidableEq, Repr

/-- State of the `Backup` object right after the field assignments and the
parsing loop of `__init__` (with `today` the `%Y%m%d` rendering of today). -/
def initState (cfg : LoadedConfig) (today : String) (verbose : Bool) : BackupState :=
  { always := cfg.always
    backup := cfg.backup
    base_folders := cfg.base_folders
    checked := false
    excluded := cfg.excluded
    individual := cfg.individual
    last_backup_folder := cfg.last_backup_folder
    last_date := cfg.last_date
    modified := false
    normal := cfg.normal
    this_backup_folder := some today
    verbose := verbose }

/-- Method `Backup._exit(message)`: resets the listed fields (the four folder lists
survive), prints the message and raises `SystemExit` via `exit()`. -/
def exitState (st : BackupState) : BackupState :=
  { st with
    backup := none
    checked := false
    last_backup_folder := none
    last_date := none
    modified := false
    verbose := false
    this_backup_folder := none }

/-- Outcome of `Backup.__init__`: either a live object, or `_exit` was called
(the process unwinds with `SystemExit`, carrying the post-`_exit` field values
that the destructor will observe). -/
inductive InitResult where
  | ok (st : BackupState)
  | fatal (st : BackupState) (message : String)
deriving DecidableEq, Repr

/-- Tail of `Backup.__init__` after parsing: `if not self.backup:
self._exit('Please indicate the backup folder in the backup.ini file.')`. -/
def init (cfg : LoadedConfig) (today : String) (verbose : Bool) : InitResult :=
  let st := initState cfg today verbose
  if pyTruthy st.backup then InitResult.ok st
  else InitResult.fatal (exitState st)
    "Please indicate the backup folder in the backup.ini file."

/-- The content `Backup.__del__` serializes back into `backup.ini` (section
headers and fixed comment lines omitted; `none` means the section body is left
empty, mirroring `if self.this_backup_folder:` / `if self.backup:`). -/
structure IniRecord where
  date : Option String
  base_folders : List String
  backup : Option String
  always : List String
  excluded : List String
  normal : List String
  individual : List String
deriving DecidableEq, Repr

/-- The record `__del__` writes from a given object state. -/
def writeRecord (st : BackupState) : IniRecord :=
  { date := if pyTruthy st.this_backup_folder then st.this_backup_folder else none
    base_folders := st.base_folders
    backup := if pyTruthy st.backup then st.backup else none
    always := st.always
    excluded := st.excluded
    normal := st.normal
    individual := st.individual }

/-- Destructor `Backup.__del__`: returns early (no write) when new folders were found
(`self.checked`) or in verbose/dry-run mode; otherwise rewrites `backup.ini`. -/
def del_run (st : BackupState) : Option IniRecord :=
  if st.checked then none
  else if st.verbose then none
  else some (writeRecord st)

/-- Method `Backup._backup(path)`: if `self.modified`, a fresh `tar -czf` of the
folder into the current generation; otherwise, when a previous generation
label exists (truthy) and differs from the current one, a `mv` of the existing
archive from the previous generation directory into the current one. -/
def backup_cmds (bk tb : String) (lb : Option String) (modified : Bool)
    (path : String) : List Cmd :=
  let backup_file_name := stripName path
  if modified then
    [Cmd.tarCreate (s!"{bk}/{tb}/{backup_file_name}.tar.gz") path]
  else
    match lb with
    | none => []
    | some l =>
      if !l.isEmpty && l != tb then
        [Cmd.mv (s!"{bk}/{l}/{backup_file_name}.tar.gz") (s!"{bk}/{tb}/")]
      else []

/-- The `tar -rf` appends issued by the loop of `Backup._make_tarball`: one per
immediate entry that is not a directory and whose name does not start with a
dot (`if not isdir(local_file) and '.' != local_path[0]`). -/
def tarballAppends (bk tb path : String) (entries : List Entry) : List Cmd :=
  let backup_file_name := stripName path
  entries.filterMap fun e =>
    match e with
    | Entry.dir _ _ _ => none
    | Entry.file n _ =>
      if n.data.head? == some '.' then none
      else some (Cmd.tarAppend (s!"{bk}/{tb}/{backup_file_name}.tar") (s!"{path}/{n}"))

/-- Method `Backup._make_tarball(path)` over the listing `entries` of `path`:
append every non-hidden regular file to `<name>.tar`; if none was appended
(`b_no_tar` still true) stop; otherwise gzip the tar and remove it. -/
def make_tarball_cmds (bk tb path : String) (entries : List Entry) : List Cmd :=
  let backup_file_name := stripName path
  let appends := tarballAppends bk tb path entries
  if appends.isEmpty then []
  else
    appends ++
      [Cmd.gzip (s!"{bk}/{tb}/{backup_file_name}.tar")
        (s!"{bk}/{tb}/{backup_file_name}.tar.gz"),
       Cmd.rm (s!"{bk}/{tb}/{backup_file_name}.tar")]

/-- An entry that does not trigger a `tar -rf` append in `_make_tarball`:
a directory, or a dot-prefixed (hidden) name. -/
def notVisibleFile : Entry → Bool
  | Entry.dir _ _ _ => true
  | Entry.file n _ => n.data.head? == some '.'

/-- The individual-files tail of `Backup.go`: one `tar -rf` append per entry of
`self.individual`, then — unconditionally — the `gzip` of `individual.tar` and
the `rm` of the uncompressed tar. -/
def individual_cmds (bk tb : String) (individual : List String) : List Cmd :=
  (individual.map fun f => Cmd.tarAppend (s!"{bk}/{tb}/individual.tar") f)
    ++ [Cmd.gzip (s!"{bk}/{tb}/individual.tar") (s!"{bk}/{tb}/individual.tar.gz"),
        Cmd.rm (s!"{bk}/{tb}/individual.tar")]

/-- Method `Backup._check_new`: for each base folder, every immediate subdirectory
that is in none of `always`, `excluded`, `normal` is new; `bases` pairs each
base folder path with its listing. -/
def check_new_list (always excluded normal : List String)
    (bases : List (String × List Entry)) : List String :=
  bases.flatMap fun pe =>
    pe.2.filterMap fun e =>
      match e with
      | Entry.file _ _ => none
      | Entry.dir nm _ _ =>
        let local_folder := s!"{pe.1}/{nm}"
        if always.contains local_folder then none
        else if excluded.contains local_folder then none
        else if normal.contains local_folder then none
        else some local_folder

/-- The `for local_path in self.normal` loop of `Backup.go`, threading the
mutable `self.modified` flag: each iteration first resets it to `False`,
runs `_check_folders` on that folder's subtree, then `_backup`.  Returns the
issued commands and the final flag value. -/
def normalLoop (ld : Option Nat) (bk tb : String) (lb : Option String)
    (fsOf : String → List Entry) : List String → Bool → List Cmd × Bool
  | [], m => ([], m)
  | p :: rest, _ =>
    let m1 := check_folders ld (fsOf p) false
    let tail := normalLoop ld bk tb lb fsOf rest m1
    (backup_cmds bk tb lb m1 p ++ tail.1, tail.2)

/-- Result of one `Backup.go` run: the new folders reported by `_check_new`,
the external operations issued, and the final object state. -/
structure GoOut where
  newFolders : List String
  cmds : List Cmd
  state : BackupState
deriving Repr

/-- Method `Backup.go`: scan for new folders and abort if any; else ensure the
current generation directory (`genDirExists` is the `isdir` probe), archive
base-folder files, always-folders (with `self.modified = True`), normal
folders, then the individual-files bundle.  `fsOf` gives the listing of a
directory path in the filesystem snapshot. -/
def go_run (fsOf : String → List Entry) (genDirExists : Bool)
    (st : BackupState) : GoOut :=
  let nf := check_new_list st.always st.excluded st.normal
      (st.base_folders.map fun b => (b, fsOf b))
  if nf.isEmpty then
    let bk := pyStr st.backup
    let tb := pyStr st.this_backup_folder
    let mkdirCmds : List Cmd := if genDirExists then [] else [Cmd.mkdir (s!"{bk}/{tb}")]
    let baseCmds := st.base_folders.flatMap fun p => make_tarball_cmds bk tb p (fsOf p)
    let alwaysCmds := st.always.flatMap fun p =>
      backup_cmds bk tb st.last_backup_folder true p
    let nrm := normalLoop st.last_date bk tb st.last_backup_folder fsOf st.normal true
    let indCmds := individual_cmds bk tb st.individual
    { newFolders := []
      cmds := mkdirCmds ++ baseCmds ++ alwaysCmds ++ nrm.1 ++ indCmds
      state := { st with modified := nrm.2 } }
  else
    { newFolders := nf, cmds := [], state := { st with checked := true } }

/-- The keep test of `Backup.cleanup_drive`: a subdirectory named `n` survives
iff `n` equals the previous-generation label or the pinned name `laptop`
(`local_path != self.last_backup_folder and local_path != 'laptop'` deletes;
with no previous label recorded, no name matches it). -/
def keptDir (lb : Option String) (n : String) : Bool :=
  (some n == lb) || (n == "laptop")

/-- Method `Backup.cleanup_drive` over the listing of the destination: one
`rm -r` per non-kept subdirectory (files are untouched). -/
def cleanup_cmds (bk : String) (lb : Option String) (es : List Entry) : List Cmd :=
  es.filterMap fun e =>
    match e with
    | Entry.file _ _ => none
    | Entry.dir n _ _ =>
      if keptDir lb n then none else some (Cmd.rmr (s!"{bk}/{n}"))

/-- Effect of the issued `rm -r` commands on the destination listing: the
non-kept subdirectories disappear. -/
def cleanup_apply (lb : Option String) (es : List Entry) : List Entry :=
  es.filter fun e =>
    match e with
    | Entry.file _ _ => true
    | Entry.dir n _ _ => keptDir lb n

/-- Sequential issuing of executor operations, each with its stderr text:
`pipe` raises `PipeError` at the first genuine error, so the operations after
it are never issued.  Returns the operations actually issued and the surfaced
diagnostic, if any. -/
def exec_until_error : List String → List String × Option String
  | [] => ([], none)
  | e :: rest =>
    if pipe_raises e then ([e], some e)
    else
      let tail := exec_until_error rest
      (e :: tail.1, tail.2)

/-- The `__main__` tail: a `PipeError` escaping `go` is caught, `verbose` is
set to `True` before the object is dropped (so `__del__` will not rewrite
`backup.ini`), and the diagnostic is printed; otherwise `__del__` runs on the
final state as is. -/
def main_persists (st : BackupState) (runError : Option String) : Option IniRecord :=
  match runError with
  | some _ => del_run { st with verbose := true }
  | none => del_run st

/-- Filesystem snapshot used as concrete input below: the base folder `/data`
holds one unclassified subdirectory `newstuff`. -/
def fsNew : String → List Entry :=
  fun p => if p == "/data" then [Entry.dir "newstuff" 0 []] else []

/-- Concrete object state used as input below: base folder `/data`, destination
`/backup`, current generation `20261012`, nothing else configured. -/
def stNew : BackupState :=
  { always := [], backup := some "/backup", base_folders := ["/data"], checked := false,
    excluded := [], individual := [], last_backup_folder := none, last_date := none,
    modified := false, normal := [], this_backup_folder := some "20261012",
    verbose := false }

theorem check_loop_eq (ld : Option Nat) (cs : List Entry) (m : Bool) :
    check_loop ld cs m = (m || loopSpec ld cs) := by
  induction cs, m using check_loop.induct ld with
  | case1 m => cases ld <;> simp [check_loop, loopSpec, entriesHasDir, entriesDirExceeds]
  | case2 name mtime rest m ih =>
    cases ld <;> simpa [check_loop, loopSpec, entriesHasDir, entriesDirExceeds] using ih
  | case3 name mt cs rest m hld =>
    subst hld; simp [check_loop, loopSpec, entriesHasDir]
  | case4 name mt cs rest m d hld hd =>
    subst hld; simp [check_loop, loopSpec, entriesDirExceeds, hd]
  | case5 name mt cs rest m d hld hd ih1 ih2 =>
    subst hld
    simp only [check_loop, if_neg hd, loopSpec, dite_eq_ite] at ih1 ih2 ⊢
    rw [ih2]
    cases m with
    | false => simp [ih1, entriesDirExceeds, hd]
    | true => simp [entriesDirExceeds]

theorem check_folders_none (cs : List Entry) : check_folders none cs false = true := by
  simp [check_folders]

theorem check_folders_some (d : Nat) (cs : List Entry) :
    check_folders (some d) cs false = entriesDirExceeds d cs := by
  simp [check_folders, check_loop_eq, loopSpec]

/-- C4 (amended): starting from a reset `modified` flag, `_check_folders`
reports modified exactly when `last_date` is absent, or some nested
subdirectory of the tree has modification time strictly greater than
`last_date`; file entries' timestamps are never examined, and the result is a
pure disjunction over the tree, independent of traversal order. -/
theorem isModified_iff_newer_subdir (d : Nat) (cs : List Entry) :
    check_folders none cs false = true
    ∧ check_folders (some d) cs false = entriesDirExceeds d cs :=
  ⟨check_folders_none cs, check_folders_some d cs⟩

/-- C4 counterexample: a folder whose only entry is a regular file with
modification time 10, checked against last-backup date 5.  The claim as
stated ("at least one nested entry ... greater than since" forces true)
predicts modified; `_check_folders` only inspects directory entries and
reports unmodified. -/
theorem isModified_ignores_file_mtimes :
    check_folders (some 5) [Entry.file "f.txt" 10] false = false
    ∧ entriesAnyExceeds 5 [Entry.file "f.txt" 10] = true := by
  constructor
  · simp [check_folders, check_loop]
  · simp [entriesAnyExceeds]

theorem removeChar_both (l : List Char) :
    removeChar '.' (removeChar '/' l)
      = l.filter fun c => !(c == '/') && !(c == '.') := by
  unfold removeChar
  rw [List.filter_filter]
  exact List.filter_congr fun a _ => by simp [bne, Bool.and_comm]

/-- C2 (amended): the archive-name derivation is deterministic, and two tracked
paths receive the same archive filename exactly when their character sequences
agree after deleting every '/' and '.'; so the derivation is injective over
path sets whose members still differ after that deletion, but not over all
distinct paths. -/
theorem stripName_eq_iff (p q : String) :
    stripName p = stripName q ↔
      p.data.filter (fun c => !(c == '/') && !(c == '.'))
        = q.data.filter (fun c => !(c == '/') && !(c == '.')) := by
  unfold stripName
  rw [removeChar_both, removeChar_both]
  exact ⟨fun h => by simpa using congrArg String.data h, fun h => congrArg String.mk h⟩

/-- C2 counterexample: the two distinct paths `/a/b` and `/ab` derive the same
archive filename, so within one generation their archives collide. -/
theorem stripName_not_injective :
    stripName "/a/b" = stripName "/ab" ∧ "/a/b" ≠ "/ab" := by
  constructor
  · rfl
  · decide

/-- C1: with `individualFiles` empty, `go` still issues the bundle-archive
compression and cleanup.  Concretely: destination `/backup`, generation
`20261012`, nothing configured at all — the run's entire command list is the
`gzip` of the (never created) `individual.tar` and its `rm`, rather than being
empty as the claim requires. -/
theorem go_bundles_even_with_no_individual_files :
    (go_run (fun _ => []) true
      { always := [], backup := some "/backup", base_folders := [], checked := false,
        excluded := [], individual := [], last_backup_folder := none, last_date := none,
        modified := false, normal := [], this_backup_folder := some "20261012",
        verbose := false }).cmds
      = [Cmd.gzip "/backup/20261012/individual.tar" "/backup/20261012/individual.tar.gz",
         Cmd.rm "/backup/20261012/individual.tar"] := by
  rfl

/-- C3 (amended): with no destination determinable, `__init__` reports the
condition and the process exits via `_exit`; the destructor then still
rewrites the configuration record, with the date, destination and last-backup
fields cleared by `_exit` and the four folder lists preserved. -/
theorem missing_destination_fatal_rewrites (cfg : LoadedConfig) (today : String)
    (v : Bool) (h : pyTruthy cfg.backup = false) :
    init cfg today v
      = InitResult.fatal (exitState (initState cfg today v))
        "Please indicate the backup folder in the backup.ini file."
    ∧ del_run (exitState (initState cfg today v))
      = some { date := none, base_folders := cfg.base_folders, backup := none,
               always := cfg.always, excluded := cfg.excluded, normal := cfg.normal,
               individual := cfg.individual } := by
  constructor
  · simp [init, initState, h]
  · simp [del_run, exitState, initState, writeRecord, pyTruthy]

/-- Witness for the C3 amended theorem at a concrete configuration with no
destination and one normal folder. -/
theorem missing_destination_fatal_rewrites_witness :
    init ⟨none, none, none, [], [], [], ["/data/docs"], []⟩ "20261012" false
      = InitResult.fatal
        (exitState (initState ⟨none, none, none, [], [], [], ["/data/docs"], []⟩
          "20261012" false))
        "Please indicate the backup folder in the backup.ini file."
    ∧ del_run (exitState (initState ⟨none, none, none, [], [], [], ["/data/docs"], []⟩
        "20261012" false))
      = some { date := none, base_folders := [], backup := none, always := [],
               excluded := [], normal := ["/data/docs"], individual := [] } :=
  missing_destination_fatal_rewrites
    ⟨none, none, none, [], [], [], ["/data/docs"], []⟩ "20261012" false rfl

/-- C3 counterexample: a configuration with no destination and one normal
folder.  `__init__` does exit fatally, but the destructor then observes
`checked = False` and `verbose = False` (both forced by `_exit`) and rewrites
`backup.ini` — the run does not "exit without persisting (rewriting) the
configuration record". -/
theorem missing_destination_still_writes_ini :
    init ⟨none, none, none, [], [], [], ["/data/docs"], []⟩ "20261012" false
      = InitResult.fatal
        ⟨[], none, [], false, [], [], none, none, false, ["/data/docs"], none, false⟩
        "Please indicate the backup folder in the backup.ini file."
    ∧ del_run
        ⟨[], none, [], false, [], [], none, none, false, ["/data/docs"], none, false⟩
      ≠ none := by
  constructor
  · rfl
  · decide

/-- C5: when `_check_new` finds any unclassified immediate subdirectory of a
base folder, `go` aborts: no external operation is issued (in particular no
generation directory is created and nothing is archived), the new paths are
reported, `checked` is set, and the destructor will not rewrite
`backup.ini`. -/
theorem new_folders_abort_run (fsOf : String → List Entry) (gde : Bool)
    (st : BackupState)
    (h : check_new_list st.always st.excluded st.normal
        (st.base_folders.map fun b => (b, fsOf b)) ≠ []) :
    (go_run fsOf gde st).cmds = []
    ∧ (go_run fsOf gde st).newFolders
        = check_new_list st.always st.excluded st.normal
            (st.base_folders.map fun b => (b, fsOf b))
    ∧ (go_run fsOf gde st).state.checked = true
    ∧ del_run (go_run fsOf gde st).state = none := by
  have hne : (check_new_list st.always st.excluded st.normal
      (st.base_folders.map fun b => (b, fsOf b))).isEmpty = false := by
    simpa [List.isEmpty_iff] using h
  refine ⟨?_, ?_, ?_, ?_⟩ <;> simp [go_run, hne, del_run]

/-- Witness for C5: base folder `/data` contains the unclassified
subdirectory `newstuff`. -/
theorem new_folders_abort_run_witness :
    (go_run fsNew true stNew).cmds = []
    ∧ (go_run fsNew true stNew).newFolders
        = check_new_list stNew.always stNew.excluded stNew.normal
            (stNew.base_folders.map fun b => (b, fsNew b))
    ∧ (go_run fsNew true stNew).state.checked = true
    ∧ del_run (go_run fsNew true stNew).state = none :=
  new_folders_abort_run fsNew true stNew (by decide)

/-- C6 (amended): an executor diagnostic that does not contain the benign
path-normalization notice stops the run at that operation (the remaining ones
are never issued), is surfaced, and suppresses the rewrite of `backup.ini`;
while any diagnostic containing the notice — even alongside further text —
never raises. -/
theorem genuine_error_aborts_run (e e2 : String) (rest : List String)
    (st : BackupState) (h : pipe_raises e = true)
    (h2 : containsSeq benignNotice.data e2.data = true) :
    exec_until_error (e :: rest) = ([e], some e)
    ∧ main_persists st (some e) = none
    ∧ pipe_raises e2 = false := by
  refine ⟨by simp [exec_until_error, h], ?_, by simp [pipe_raises, h2]⟩
  cases hc : st.checked <;> simp [main_persists, del_run, hc]

/-- Witness for the C6 amended theorem: a genuine tar failure aborts, and the
benign notice itself does not raise. -/
theorem genuine_error_aborts_run_witness :
    exec_until_error ("tar: /data/docs: Cannot stat" :: ["next op err"])
      = (["tar: /data/docs: Cannot stat"], some "tar: /data/docs: Cannot stat")
    ∧ main_persists stNew (some "tar: /data/docs: Cannot stat") = none
    ∧ pipe_raises benignNotice = false :=
  genuine_error_aborts_run "tar: /data/docs: Cannot stat" benignNotice
    ["next op err"] stNew (by decide) (by decide)

/-- C6 counterexample: a diagnostic that contains the benign notice followed
by a genuine tar error.  It differs from the benign notice and is non-empty,
so by the claim it should escalate; `pipe` does not raise on it. -/
theorem mixed_diagnostic_not_escalated :
    pipe_raises (benignNotice ++ "; tar: Unexpected EOF in archive") = false
    ∧ benignNotice ++ "; tar: Unexpected EOF in archive" ≠ benignNotice
    ∧ benignNotice ++ "; tar: Unexpected EOF in archive" ≠ "" := by
  refine ⟨by decide, by decide, by decide⟩

theorem normalLoop_fst (ld : Option Nat) (bk tb : String) (lb : Option String)
    (fsOf : String → List Entry) :
    ∀ (ps : List String) (m : Bool),
      (normalLoop ld bk tb lb fsOf ps m).1
        = ps.flatMap fun p => backup_cmds bk tb lb (check_folders ld (fsOf p) false) p := by
  intro ps
  induction ps with
  | nil => intro m; simp [normalLoop]
  | cons p rest ih => intro m; simp [normalLoop, ih]

/-- C9: because each iteration of the normal-folders loop resets `modified`
before calling `_check_folders`, its command stream is unchanged under any
incoming flag value (in particular the `True` forced by the always-folders
phase), and equals the concatenation of per-folder decisions, each a pure
function of that folder's own subtree and the last-backup date. -/
theorem normal_decisions_independent (ld : Option Nat) (bk tb : String)
    (lb : Option String) (fsOf : String → List Entry) (ps : List String)
    (m1 m2 : Bool) :
    (normalLoop ld bk tb lb fsOf ps m1).1 = (normalLoop ld bk tb lb fsOf ps m2).1
    ∧ (normalLoop ld bk tb lb fsOf ps m1).1
        = ps.flatMap fun p =>
            backup_cmds bk tb lb (check_folders ld (fsOf p) false) p := by
  refine ⟨?_, normalLoop_fst ld bk tb lb fsOf ps m1⟩
  rw [normalLoop_fst, normalLoop_fst]

/-- C7: a normal folder found unmodified, when the previous generation label
exists (non-empty) and differs from the current one, contributes a single
`mv` of its existing archive from the previous generation into the current
generation — no `tar`, no recompression — and that `mv` is among the commands
of the normal-folders loop run. -/
theorem unmodified_folder_archive_moved (ld : Option Nat)
    (fsOf : String → List Entry) (bk tb l p : String) (ps : List String)
    (m : Bool) (hp : p ∈ ps)
    (hmod : check_folders ld (fsOf p) false = false)
    (hne : l.isEmpty = false) (hneq : (l == tb) = false) :
    backup_cmds bk tb (some l) (check_folders ld (fsOf p) false) p
      = [Cmd.mv (s!"{bk}/{l}/{stripName p}.tar.gz") (s!"{bk}/{tb}/")]
    ∧ Cmd.mv (s!"{bk}/{l}/{stripName p}.tar.gz") (s!"{bk}/{tb}/")
        ∈ (normalLoop ld bk tb (some l) fsOf ps m).1 := by
  have h1 : backup_cmds bk tb (some l) (check_folders ld (fsOf p) false) p
      = [Cmd.mv (s!"{bk}/{l}/{stripName p}.tar.gz") (s!"{bk}/{tb}/")] := by
    simp [backup_cmds, hmod, hne, hneq, bne]
  refine ⟨h1, ?_⟩
  rw [normalLoop_fst]
  exact List.mem_flatMap.mpr ⟨p, hp, by rw [h1]; exact List.mem_singleton_self _⟩

/-- Witness for C7: folder `/data/docs` with an empty (hence unmodified)
subtree, previous generation `20240101`, current `20261012`: its archive
`datadocs.tar.gz` is moved, not recompressed. -/
theorem unmodified_folder_archive_moved_witness :
    backup_cmds "/backup" "20261012" (some "20240101")
        (check_folders (some 7) ((fun _ => ([] : List Entry)) "/data/docs") false)
        "/data/docs"
      = [Cmd.mv "/backup/20240101/datadocs.tar.gz" "/backup/20261012/"]
    ∧ Cmd.mv "/backup/20240101/datadocs.tar.gz" "/backup/20261012/"
        ∈ (normalLoop (some 7) "/backup" "20261012" (some "20240101")
            (fun _ => ([] : List Entry)) ["/data/docs"] true).1 :=
  unmodified_folder_archive_moved (some 7) (fun _ => ([] : List Entry))
    "/backup" "20261012" "20240101" "/data/docs" ["/data/docs"] true
    (by decide) (by simp [check_folders, check_loop]) (by decide) (by decide)

/-- C10: for a base folder whose immediate entries are all directories or
dot-prefixed (hidden) names, `_make_tarball` issues nothing: no `tar -rf`, no
`gzip`, no `rm`, hence no archive for that base folder appears in the current
generation. -/
theorem base_folder_without_visible_files_skipped (bk tb p : String)
    (entries : List Entry) (h : entries.all notVisibleFile = true) :
    make_tarball_cmds bk tb p entries = [] := by
  have happ : tarballAppends bk tb p entries = [] := by
    unfold tarballAppends
    rw [List.filterMap_eq_nil_iff]
    intro e he
    have hv := List.all_eq_true.mp h e he
    cases e with
    | dir nm mt cs => rfl
    | file n mt =>
      simp only [notVisibleFile] at hv
      simp [hv]
  simp [make_tarball_cmds, happ]

/-- Witness for C10: a base folder containing one subdirectory and one hidden
file yields no commands. -/
theorem base_folder_without_visible_files_skipped_witness :
    make_tarball_cmds "/backup" "20261012" "/data"
      [Entry.dir "sub" 3 [], Entry.file ".hidden" 7] = [] :=
  base_folder_without_visible_files_skipped "/backup" "20261012" "/data"
    [Entry.dir "sub" 3 [], Entry.file ".hidden" 7] (by rfl)

/-- C8: pruning the destination is idempotent — a second run on the pruned
listing issues no deletion and leaves the listing unchanged — and it deletes
exactly the subdirectories whose names are outside the keep set (the previous
generation's label plus the pinned name `laptop`): a surviving subdirectory is
one that was present and kept, and every present non-kept subdirectory gets an
`rm -r`. -/
theorem cleanup_idempotent_exact (bk : String) (lb : Option String)
    (es : List Entry) (n : String) (mt : Nat) (cs : List Entry) :
    cleanup_apply lb (cleanup_apply lb es) = cleanup_apply lb es
    ∧ cleanup_cmds bk lb (cleanup_apply lb es) = []
    ∧ (Entry.dir n mt cs ∈ cleanup_apply lb es
        ↔ Entry.dir n mt cs ∈ es ∧ keptDir lb n = true)
    ∧ (Entry.dir n mt cs ∈ es → keptDir lb n = false
        → Cmd.rmr (s!"{bk}/{n}") ∈ cleanup_cmds bk lb es) := by
  refine ⟨?_, ?_, ?_, ?_⟩
  · unfold cleanup_apply
    rw [List.filter_filter]
    exact List.filter_congr fun a _ => by cases a <;> simp
  · unfold cleanup_cmds
    rw [List.filterMap_eq_nil_iff]
    intro e he
    have hk := (List.mem_filter.mp he).2
    cases e with
    | file nm mt2 => rfl
    | dir nm mt2 cs2 =>
      have hk2 : keptDir lb nm = true := hk
      simp [hk2]
  · simp [cleanup_apply, List.mem_filter]
  · intro hmem hk
    exact List.mem_filterMap.mpr ⟨Entry.dir n mt cs, hmem, by simp [hk]⟩

/-- Witness for C8 at a concrete destination listing: previous generation
`20240101` kept, `laptop` kept, `20231201` deleted. -/
theorem cleanup_idempotent_exact_witness :
    cleanup_apply (some "20240101")
        (cleanup_apply (some "20240101")
          [Entry.dir "20231201" 0 [], Entry.dir "laptop" 0 [],
           Entry.dir "20240101" 0 [], Entry.file "stray.txt" 0])
      = cleanup_apply (some "20240101")
          [Entry.dir "20231201" 0 [], Entry.dir "laptop" 0 [],
           Entry.dir "20240101" 0 [], Entry.file "stray.txt" 0]
    ∧ cleanup_cmds "/backup" (some "20240101")
        (cleanup_apply (some "20240101")
          [Entry.dir "20231201" 0 [], Entry.dir "laptop" 0 [],
           Entry.dir "20240101" 0 [], Entry.file "stray.txt" 0]) = []
    ∧ (Entry.dir "20231201" 0 [] ∈ cleanup_apply (some "20240101")
          [Entry.dir "20231201" 0 [], Entry.dir "laptop" 0 [],
           Entry.dir "20240101" 0 [], Entry.file "stray.txt" 0]
        ↔ Entry.dir "20231201" 0 []
            ∈ [Entry.dir "20231201" 0 [], Entry.dir "laptop" 0 [],
               Entry.dir "20240101" 0 [], Entry.file "stray.txt" 0]
          ∧ keptDir (some "20240101") "20231201" = true)
    ∧ (Entry.dir "20231201" 0 []
          ∈ [Entry.dir "20231201" 0 [], Entry.dir "laptop" 0 [],
             Entry.dir "20240101" 0 [], Entry.file "stray.txt" 0]
        → keptDir (some "20240101") "20231201" = false
        → Cmd.rmr "/backup/20231201"
            ∈ cleanup_cmds "/backup" (some "20240101")
              [Entry.dir "20231201" 0 [], Entry.dir "laptop" 0 [],
               Entry.dir "20240101" 0 [], Entry.file "stray.txt" 0]) :=
  cleanup_idempotent_exact "/backup" (some "20240101")
    [Entry.dir "20231201" 0 [], Entry.dir "laptop" 0 [],
     Entry.dir "20240101" 0 [], Entry.file "stray.txt" 0] "20231201" 0 []

/-- Witness for the C2 amended theorem at two concrete tracked paths. -/
theorem stripName_eq_iff_witness :
    stripName "/data/docs" = stripName "/data.docs" ↔
      "/data/docs".data.filter (fun c => !(c == '/') && !(c == '.'))
        = "/data.docs".data.filter (fun c => !(c == '/') && !(c == '.')) :=
  stripName_eq_iff "/data/docs" "/data.docs"

end PyBackup
